import Mathlib

/-!
Verification of the feature-extraction engine of the
MultimodalContentSummarizer repository (src/server/feature_extractor.py).

Shallow embedding: Python dict-shaped records become Lean structures, the
numeric types (timestamps, coordinates, bpm) are modelled as rationals, and
the imperative loops become folds / structural recursions.  `np.mean` over a
nonempty list is sum divided by length; `np.sqrt(a) <= d` for `a ≥ 0` is
modelled by the equivalent rational condition `0 ≤ d ∧ a ≤ d ^ 2`.
-/

namespace FeatureExtractor

/-- A gaze sample: keys `t`, `x`, `y`, `aoi` of the Python gaze-point dict.
A missing `aoi` key (Python `point.get('aoi', 'NONE')`) is represented by
the sentinel string value "NONE" itself. -/
structure GazeSample where
  t : ℚ
  x : ℚ
  y : ℚ
  aoi : String
  deriving DecidableEq

/-- An emitted fixation: keys `x`, `y`, `start`, `end`, `duration`, `aoi`
of the Python fixation dict.  The Python key `end` is a Lean keyword and is
embedded as the field `endt`. -/
structure Fixation where
  x : ℚ
  y : ℚ
  start : ℚ
  endt : ℚ
  duration : ℚ
  aoi : String
  deriving DecidableEq

/-- The open candidate group (`current_fixation` in the Python loop):
accumulated x values, accumulated y values, `start`, `end` (as `endt`) and
the AOI of the first member. -/
structure Candidate where
  xs : List ℚ
  ys : List ℚ
  start : ℚ
  endt : ℚ
  aoi : String
  deriving DecidableEq

/-- `np.mean` of a nonempty list of rationals: sum divided by length. -/
def listMean (l : List ℚ) : ℚ :=
  l.sum / (l.length : ℚ)

/-- The Python distance test
`np.sqrt((x - cx)**2 + (y - cy)**2) <= distance_threshold`, expressed
without a square root: for `dx^2 + dy^2 ≥ 0`, `sqrt (dx^2 + dy^2) ≤ d`
holds exactly when `0 ≤ d` and `dx^2 + dy^2 ≤ d^2`. -/
def distWithin (dx dy d : ℚ) : Bool :=
  decide (0 ≤ d) && decide (dx ^ 2 + dy ^ 2 ≤ d ^ 2)

/-- Closing a candidate (the duration test of lines 51-61 and 72-83 of
feature_extractor.py): if `end - start >= duration_threshold` the candidate
is appended to the fixation list as a Fixation whose coordinates are the
means of the accumulated members; otherwise it is dropped. -/
def closeCandidate (duration_threshold : ℚ) (c : Candidate)
    (fixations : List Fixation) : List Fixation :=
  let duration := c.endt - c.start
  if duration ≥ duration_threshold then
    fixations ++ [⟨listMean c.xs, listMean c.ys, c.start, c.endt, duration, c.aoi⟩]
  else
    fixations

/-- Opening a fresh candidate seeded with one sample. -/
def seedCandidate (p : GazeSample) : Candidate :=
  ⟨[p.x], [p.y], p.t, p.t, p.aoi⟩

/-- One iteration of the `for point in gaze_points` loop of
`detect_fixations`.  State: the emitted fixations so far and the open
candidate (`none` models Python `current_fixation is None`). -/
def detectStep (distance_threshold duration_threshold : ℚ)
    (st : List Fixation × Option Candidate) (p : GazeSample) :
    List Fixation × Option Candidate :=
  match st with
  | (fixations, none) => (fixations, some (seedCandidate p))
  | (fixations, some c) =>
    let center_x := listMean c.xs
    let center_y := listMean c.ys
    if distWithin (p.x - center_x) (p.y - center_y) distance_threshold
        && (c.aoi == p.aoi) then
      (fixations, some ⟨c.xs ++ [p.x], c.ys ++ [p.y], c.start, p.t, c.aoi⟩)
    else
      (closeCandidate duration_threshold c fixations, some (seedCandidate p))

/-- `detect_fixations(gaze_points, distance_threshold=50,
duration_threshold=100)`: the I-DT loop of feature_extractor.py lines 6-85.
The Python default thresholds 50 and 100 are passed explicitly by callers
here.  The trailing `if current_fixation:` flush is the final
`closeCandidate`. -/
def detect_fixations (gaze_points : List GazeSample)
    (distance_threshold duration_threshold : ℚ) :
    List Fixation :=
  let st := gaze_points.foldl (detectStep distance_threshold duration_threshold)
    ([], none)
  match st with
  | (fixations, none) => fixations
  | (fixations, some c) => closeCandidate duration_threshold c fixations

/-- The in-order list of strictly positive inter-fixation gaps collected by
the `for i in range(len(fixations) - 1)` loop of `compute_saccade_duration`
(lines 101-106): `fixations[i + 1]['start'] - fixations[i]['end']`, kept
only when `> 0`. -/
def saccadeGapsPos : List Fixation → List ℚ
  | a :: b :: rest =>
    (if b.start - a.endt > 0 then [b.start - a.endt] else [])
      ++ saccadeGapsPos (b :: rest)
  | _ => []

/-- `compute_saccade_duration(fixations)` of feature_extractor.py
lines 88-108. -/
def compute_saccade_duration (fixations : List Fixation) : ℚ :=
  if fixations.length < 2 then 0
  else
    let saccade_durations := saccadeGapsPos fixations
    if saccade_durations = [] then 0 else listMean saccade_durations

/-- One iteration of the loop of `calculate_reread_frequency`
(lines 127-135).  State: the `visited_aois` list and the `reread_count`. -/
def rereadStep (st : List String × ℕ) (p : GazeSample) : List String × ℕ :=
  if p.aoi == "NONE" then st
  else if st.1.contains p.aoi then (st.1, st.2 + 1)
  else (st.1 ++ [p.aoi], st.2)

/-- `calculate_reread_frequency(gaze_points)` of feature_extractor.py
lines 111-137. -/
def calculate_reread_frequency (gaze_points : List GazeSample) : ℕ :=
  if gaze_points.length < 2 then 0
  else (gaze_points.foldl rereadStep ([], 0)).2

/-- The default content AOIs `[f'p{i}' for i in range(1, 10)]` used by
`calculate_env_fixation_ratio` when `content_aois is None`. -/
def defaultContentAois : List String :=
  ["p1", "p2", "p3", "p4", "p5", "p6", "p7", "p8", "p9"]

/-- `calculate_env_fixation_ratio(fixations, content_aois=None)` of
feature_extractor.py lines 140-162.  `none` models the Python `None`
default for `content_aois`, which callers here pass explicitly. -/
def calculate_env_fixation_ratio (fixations : List Fixation)
    (content_aois : Option (List String)) : ℚ :=
  if fixations.length = 0 then 0
  else
    let cs := content_aois.getD defaultContentAois
    let env_fixations :=
      (fixations.filter (fun f => !cs.contains f.aoi && f.aoi != "NONE")).length
    let total_fixations := fixations.length
    if total_fixations > 0 then (env_fixations : ℚ) / (total_fixations : ℚ)
    else 0

/-- An interaction event: keys `t` and `type`. -/
structure InteractionEvent where
  t : ℚ
  type : String
  deriving DecidableEq

/-- A heart-rate sample: keys `t` and `bpm`. -/
structure HeartRateSample where
  t : ℚ
  bpm : ℚ
  deriving DecidableEq

/-- The per-window input of `extract_features_from_window`: the `gaze_log`,
`interactions` and `heart_rate` streams. -/
structure WindowData where
  gaze_log : List GazeSample
  interactions : List InteractionEvent
  heart_rate : List HeartRateSample
  deriving DecidableEq

/-- The click count of line 202:
`len([i for i in interactions if i.get('type') == 'click'])`. -/
def countClicks (interactions : List InteractionEvent) : ℕ :=
  (interactions.filter (fun i => i.type == "click")).length

/-- `extract_features_from_window(window_data)` of feature_extractor.py
lines 165-218, returned as the association list of the Python features
dict in insertion order.  The derived values `reread_freq`,
`env_fixation_ratio` and `click_count` are computed exactly as in the
source (lines 195-202) but, as in the source, do not appear in the
returned mapping. -/
def extract_features_from_window (window_data : WindowData) :
    List (String × ℚ) :=
  let gaze_log := window_data.gaze_log
  let interactions := window_data.interactions
  let heart_rate := window_data.heart_rate
  let fixations := detect_fixations gaze_log 50 100
  let mean_fixation_duration :=
    if fixations.length > 0 then listMean (fixations.map (fun f => f.duration))
    else 0
  let num_fixations : ℚ := if fixations.length > 0 then (fixations.length : ℚ) else 0
  let mean_saccade_duration :=
    if fixations.length > 0 then compute_saccade_duration fixations else 0
  let _reread_freq := calculate_reread_frequency gaze_log
  let content_aois := ["p1", "p2", "p3", "p4"]
  let _env_fixation_ratio := calculate_env_fixation_ratio fixations (some content_aois)
  let _click_count := countClicks interactions
  let mean_bpm :=
    if heart_rate.length > 0 then listMean (heart_rate.map (fun hr => hr.bpm))
    else 0
  [("Mean_Fixation_Duration", mean_fixation_duration),
   ("Num_of_Fixations", num_fixations),
   ("Mean_Saccade_Duration", mean_saccade_duration),
   ("Bpm", mean_bpm)]

/-- `np.mean` as it actually behaves: on an empty list it has no numeric
value (NumPy produces NaN); on a nonempty list it is the arithmetic mean.
Used to state that the aggregator never evaluates a mean of an empty
collection. -/
def npMean (l : List ℚ) : Option ℚ :=
  if l = [] then none else some (listMean l)

/-- `compute_saccade_duration` re-expressed with the NaN-propagating
`npMean`: identical control flow to the source (the
`if saccade_durations else 0.0` guard included). -/
def compute_saccade_duration_opt (fixations : List Fixation) : Option ℚ :=
  if fixations.length < 2 then some 0
  else
    let saccade_durations := saccadeGapsPos fixations
    if saccade_durations = [] then some 0 else npMean saccade_durations

/-- `extract_features_from_window` re-expressed with the NaN-propagating
`npMean` for the three possibly-empty mean computations (fixation
durations, positive saccade gaps, heart-rate bpm values), with the same
emptiness guards as the source; `none` anywhere means a NaN would have
reached the output. -/
def extract_features_opt (window_data : WindowData) :
    Option (List (String × ℚ)) :=
  let fixations := detect_fixations window_data.gaze_log 50 100
  let mfd :=
    if fixations.length > 0 then npMean (fixations.map (fun f => f.duration))
    else some 0
  let msd :=
    if fixations.length > 0 then compute_saccade_duration_opt fixations
    else some 0
  let nf : ℚ := if fixations.length > 0 then (fixations.length : ℚ) else 0
  let mbpm :=
    if window_data.heart_rate.length > 0 then
      npMean (window_data.heart_rate.map (fun hr => hr.bpm))
    else some 0
  match mfd, msd, mbpm with
  | some a, some b, some c =>
    some [("Mean_Fixation_Duration", a),
          ("Num_of_Fixations", nf),
          ("Mean_Saccade_Duration", b),
          ("Bpm", c)]
  | _, _, _ => none

/-- The adjacent inter-fixation gaps, as the claim words them: start of
fixation i+1 minus end of fixation i over adjacent pairs in order,
restricted to the strictly positive ones. -/
def positiveGaps (l : List Fixation) : List ℚ :=
  ((l.zip l.tail).map (fun pq => pq.2.start - pq.1.endt)).filter
    (fun g => 0 < g)

theorem saccadeGapsPos_eq_positiveGaps :
    ∀ l : List Fixation, saccadeGapsPos l = positiveGaps l
  | [] => rfl
  | [_] => rfl
  | a :: b :: rest => by
    have ih := saccadeGapsPos_eq_positiveGaps (b :: rest)
    simp only [saccadeGapsPos, positiveGaps, List.tail_cons, List.zip_cons_cons,
      List.map_cons, List.filter_cons] at ih ⊢
    by_cases hg : 0 < b.start - a.endt
    · simp [hg, ih]
    · simp [hg, ih, not_lt.mp]

/-- C10: `detect_fixations` returns `[]` on the empty sample list, and on
every single-sample list whenever the duration threshold is strictly
positive (the lone candidate has duration 0 and fails the closing
duration test). -/
theorem detect_fixations_empty_single (dt durt : ℚ) (s : GazeSample)
    (h : 0 < durt) :
    detect_fixations [] dt durt = [] ∧ detect_fixations [s] dt durt = [] := by
  refine ⟨rfl, ?_⟩
  show closeCandidate durt (seedCandidate s) [] = []
  unfold closeCandidate seedCandidate
  simp only [sub_self]
  rw [if_neg (by simpa using not_le.mpr h)]

/-- Witness for `detect_fixations_empty_single` at a concrete sample and
thresholds. -/
theorem detect_fixations_empty_single_witness :
    (0:ℚ) < 100
    ∧ (detect_fixations [] 50 100 = []
       ∧ detect_fixations [⟨0, 1, 2, "p1"⟩] 50 100 = []) :=
  ⟨by norm_num, detect_fixations_empty_single 50 100 ⟨0, 1, 2, "p1"⟩ (by norm_num)⟩

/-- C3: `compute_saccade_duration` is 0 on lists of fewer than two
fixations, 0 when no adjacent gap (start of next minus end of previous)
is strictly positive, and otherwise the arithmetic mean of the strictly
positive gaps. -/
theorem compute_saccade_duration_spec (l : List Fixation) :
    compute_saccade_duration l
      = if l.length < 2 ∨ positiveGaps l = [] then 0
        else (positiveGaps l).sum / ((positiveGaps l).length : ℚ) := by
  unfold compute_saccade_duration
  rw [saccadeGapsPos_eq_positiveGaps]
  rcases Nat.lt_or_ge l.length 2 with h | h
  · simp [h]
  · have h2 : ¬ l.length < 2 := not_lt.mpr h
    simp only [h2, if_neg, if_false, false_or]
    by_cases hg : positiveGaps l = []
    · simp [hg]
    · simp [hg, listMean]

/-- The window of end-to-end scenario C: empty `gaze_log`, empty
`heart_rate`, exactly one interaction of type "click". -/
def windowC : WindowData := ⟨[], [⟨5, "click"⟩], []⟩

/-- C4: on scenario C's window the returned mapping has all four eye and
heart-rate features equal to 0, and the click count computed during the
call is 1; the aggregator is total, so it produces this mapping despite
both missing streams. -/
theorem extract_features_windowC :
    extract_features_from_window windowC
      = [("Mean_Fixation_Duration", 0), ("Num_of_Fixations", 0),
         ("Mean_Saccade_Duration", 0), ("Bpm", 0)]
    ∧ countClicks windowC.interactions = 1 := by
  constructor
  · rfl
  · rfl

/-- C5: for every window input the returned mapping has exactly the four
keys Mean_Fixation_Duration, Num_of_Fixations, Mean_Saccade_Duration and
Bpm, in that order; the derived metrics (reread frequency, env-fixation
ratio, click count) computed inside the call never appear among the
keys. -/
theorem extract_features_keys (w : WindowData) :
    (extract_features_from_window w).map Prod.fst
      = ["Mean_Fixation_Duration", "Num_of_Fixations",
         "Mean_Saccade_Duration", "Bpm"] := rfl

/-- C6: with an explicit `content_aois` set, the env-fixation ratio is 0
on the empty list, 0 when every fixation's AOI is in the set, 1 when no
fixation's AOI is in the set and none is the sentinel "NONE", and always
lies in [0, 1]. -/
theorem env_fixation_ratio_spec (fixs : List Fixation) (cs : List String) :
    calculate_env_fixation_ratio [] (some cs) = 0
    ∧ ((∀ f ∈ fixs, f.aoi ∈ cs) →
        calculate_env_fixation_ratio fixs (some cs) = 0)
    ∧ (fixs ≠ [] → (∀ f ∈ fixs, f.aoi ∉ cs ∧ f.aoi ≠ "NONE") →
        calculate_env_fixation_ratio fixs (some cs) = 1)
    ∧ 0 ≤ calculate_env_fixation_ratio fixs (some cs)
    ∧ calculate_env_fixation_ratio fixs (some cs) ≤ 1 := by
  refine ⟨rfl, ?_, ?_, ?_, ?_⟩
  · intro hall
    unfold calculate_env_fixation_ratio
    rcases eq_or_ne fixs [] with he | he
    · simp [he]
    · have hlen : fixs.length ≠ 0 := by simpa using he
      have hfilter :
          fixs.filter (fun f => !cs.contains f.aoi && f.aoi != "NONE") = [] := by
        rw [List.filter_eq_nil_iff]
        intro f hf
        have hmem := hall f hf
        simp [hmem]
      simp only [Option.getD_some]
      rw [if_neg hlen, if_pos (Nat.pos_of_ne_zero hlen), hfilter]
      simp
  · intro hne hnone
    unfold calculate_env_fixation_ratio
    have hlen : fixs.length ≠ 0 := by simpa using hne
    have hfilter :
        fixs.filter (fun f => !cs.contains f.aoi && f.aoi != "NONE") = fixs := by
      rw [List.filter_eq_self]
      intro f hf
      rcases hnone f hf with ⟨h1, h2⟩
      simp [h1, h2]
    have hpos : (0:ℚ) < (fixs.length : ℚ) := by
      exact_mod_cast Nat.pos_of_ne_zero hlen
    simp only [Option.getD_some]
    rw [if_neg hlen, if_pos (Nat.pos_of_ne_zero hlen), hfilter]
    exact div_self (ne_of_gt hpos)
  · unfold calculate_env_fixation_ratio
    rcases Nat.eq_zero_or_pos fixs.length with hz | hp
    · simp [hz]
    · simp only [Option.getD_some]
      rw [if_neg (Nat.pos_iff_ne_zero.mp hp), if_pos hp]
      positivity
  · unfold calculate_env_fixation_ratio
    rcases Nat.eq_zero_or_pos fixs.length with hz | hp
    · simp [hz]
    · simp only [Option.getD_some]
      rw [if_neg (Nat.pos_iff_ne_zero.mp hp), if_pos hp]
      rw [div_le_one (by exact_mod_cast hp)]
      exact_mod_cast List.length_filter_le _ fixs

/-- Witness for `env_fixation_ratio_spec`: a single off-content,
non-sentinel fixation against the content set ["p1"] yields ratio 1. -/
theorem env_fixation_ratio_spec_witness :
    calculate_env_fixation_ratio [⟨0, 0, 0, 5, 5, "env"⟩] (some ["p1"]) = 1 :=
  (env_fixation_ratio_spec [⟨0, 0, 0, 5, 5, "env"⟩] ["p1"]).2.2.1
    (by decide) (by decide)

theorem compute_saccade_duration_opt_eq (l : List Fixation) :
    compute_saccade_duration_opt l = some (compute_saccade_duration l) := by
  unfold compute_saccade_duration_opt compute_saccade_duration npMean
  by_cases h1 : l.length < 2
  · simp [h1]
  · by_cases h2 : saccadeGapsPos l = []
    · simp [h1, h2]
    · simp [h1, h2]

/-- C7: the NaN-propagating evaluation of the aggregator succeeds on every
window and agrees with the total one: every mean over a possibly-empty
collection (fixation durations, positive saccade gaps, heart-rate samples)
is reached only behind an emptiness guard, so no NaN/Inf can appear among
the returned values. -/
theorem extract_features_no_nan (w : WindowData) :
    extract_features_opt w = some (extract_features_from_window w) := by
  unfold extract_features_opt extract_features_from_window
  simp only [compute_saccade_duration_opt_eq]
  by_cases hf : (detect_fixations w.gaze_log 50 100).length > 0
  · by_cases hh : w.heart_rate.length > 0
    · have h1 : (detect_fixations w.gaze_log 50 100).map (fun f => f.duration) ≠ [] := by
        simpa using Nat.pos_iff_ne_zero.mp hf
      have h2 : w.heart_rate.map (fun hr => hr.bpm) ≠ [] := by
        simpa using Nat.pos_iff_ne_zero.mp hh
      simp [hf, hh, npMean, h1, h2]
    · have h1 : (detect_fixations w.gaze_log 50 100).map (fun f => f.duration) ≠ [] := by
        simpa using Nat.pos_iff_ne_zero.mp hf
      simp [hf, hh, npMean, h1]
  · by_cases hh : w.heart_rate.length > 0
    · have h2 : w.heart_rate.map (fun hr => hr.bpm) ≠ [] := by
        simpa using Nat.pos_iff_ne_zero.mp hh
      simp [hf, hh, npMean, h2]
    · simp [hf, hh, npMean]

theorem rereadFold_count_le (l : List GazeSample) (st : List String × ℕ) :
    st.2 ≤ (l.foldl rereadStep st).2 := by
  induction l generalizing st with
  | nil => exact le_refl _
  | cons p rest ih =>
    rw [List.foldl_cons]
    refine le_trans ?_ (ih (rereadStep st p))
    unfold rereadStep
    split_ifs <;> simp

/-- C8: appending further samples to a gaze trace never decreases the
reread frequency. -/
theorem calculate_reread_frequency_mono (xs ys : List GazeSample) :
    calculate_reread_frequency xs ≤ calculate_reread_frequency (xs ++ ys) := by
  unfold calculate_reread_frequency
  by_cases h : xs.length < 2
  · rw [if_pos h]
    exact Nat.zero_le _
  · have h2 : ¬ (xs ++ ys).length < 2 := by
      rw [List.length_append]
      omega
    rw [if_neg h, if_neg h2, List.foldl_append]
    exact rereadFold_count_le ys _

theorem rereadFold_sameAoi (a : String) (ha : a ≠ "NONE") :
    ∀ (l : List GazeSample) (st : List String × ℕ),
    (∀ p ∈ l, p.aoi = a) → st.1.contains a = true →
    l.foldl rereadStep st = (st.1, st.2 + l.length) := by
  intro l
  induction l with
  | nil =>
    intro st _ _
    simp
  | cons p rest ih =>
    intro st hl hmem
    have hpa : p.aoi = a := hl p (List.mem_cons_self _ _)
    rw [List.foldl_cons]
    have hstep : rereadStep st p = (st.1, st.2 + 1) := by
      unfold rereadStep
      rw [hpa, if_neg (by simpa using ha), if_pos hmem]
    rw [hstep, ih (st.1, st.2 + 1)
      (fun q hq => hl q (List.mem_cons_of_mem _ hq)) hmem]
    rw [Prod.mk.injEq]
    exact ⟨rfl, by simp; omega⟩

/-- C9: on every list of k ≥ 2 samples all carrying the same non-"NONE"
AOI (a single uninterrupted visit, whatever the timestamps and
coordinates), the reread frequency is k − 1: every sample after the first
finds its AOI in the seen set and increments the counter, although the
gaze never left the AOI. -/
theorem reread_frequency_same_aoi (l : List GazeSample) (a : String)
    (hk : 2 ≤ l.length) (ha : a ≠ "NONE") (hl : ∀ p ∈ l, p.aoi = a) :
    calculate_reread_frequency l = l.length - 1 := by
  unfold calculate_reread_frequency
  rw [if_neg (by omega : ¬ l.length < 2)]
  cases l with
  | nil => simp at hk
  | cons p rest =>
    have hpa : p.aoi = a := hl p (List.mem_cons_self _ _)
    rw [List.foldl_cons]
    have h1 : rereadStep ([], 0) p = ([a], 0) := by
      unfold rereadStep
      rw [hpa, if_neg (by simpa using ha)]
      simp
    rw [h1, rereadFold_sameAoi a ha rest ([a], 0)
      (fun q hq => hl q (List.mem_cons_of_mem _ hq)) (by simp)]
    simp

/-- Witness for `reread_frequency_same_aoi`: three samples sharing AOI
"p1" but differing in timestamp and coordinates give reread frequency
2 = 3 − 1. -/
theorem reread_frequency_same_aoi_witness :
    calculate_reread_frequency
      [⟨0, 10, 20, "p1"⟩, ⟨50, 11, 21, "p1"⟩, ⟨90, 300, 12, "p1"⟩]
      = [(⟨0, 10, 20, "p1"⟩ : GazeSample), ⟨50, 11, 21, "p1"⟩,
         ⟨90, 300, 12, "p1"⟩].length - 1 :=
  reread_frequency_same_aoi
    [⟨0, 10, 20, "p1"⟩, ⟨50, 11, 21, "p1"⟩, ⟨90, 300, 12, "p1"⟩] "p1"
    (by norm_num) (by decide) (by decide)

theorem mem_closeCandidate {durt : ℚ} {c : Candidate} {acc : List Fixation}
    {f : Fixation} (hf : f ∈ closeCandidate durt c acc) :
    f ∈ acc
    ∨ (f.start = c.start ∧ f.endt = c.endt
       ∧ f.duration = c.endt - c.start ∧ durt ≤ c.endt - c.start) := by
  simp only [closeCandidate] at hf
  split_ifs at hf with h
  · rcases List.mem_append.mp hf with h1 | h1
    · exact Or.inl h1
    · right
      rw [List.mem_singleton] at h1
      subst h1
      exact ⟨rfl, rfl, rfl, h⟩
  · exact Or.inl hf

theorem detectStep_fst_mem (dt durt : ℚ) (st : List Fixation × Option Candidate)
    (p : GazeSample) (f : Fixation) (hf : f ∈ (detectStep dt durt st p).1) :
    f ∈ st.1
    ∨ (∃ c, st.2 = some c ∧ f.start = c.start ∧ f.endt = c.endt
         ∧ f.duration = c.endt - c.start ∧ durt ≤ c.endt - c.start) := by
  rcases st with ⟨fixs, oc⟩
  cases oc with
  | none => exact Or.inl hf
  | some c =>
    simp only [detectStep] at hf
    split_ifs at hf with h
    · exact Or.inl hf
    · rcases mem_closeCandidate hf with h1 | h1
      · exact Or.inl h1
      · exact Or.inr ⟨c, rfl, h1⟩

theorem detectLoop_duration (dt durt : ℚ) (pts : List GazeSample)
    (fixs : List Fixation) (oc : Option Candidate)
    (hinv : ∀ f ∈ fixs, f.duration = f.endt - f.start ∧ durt ≤ f.duration) :
    ∀ f ∈ (pts.foldl (detectStep dt durt) (fixs, oc)).1,
      f.duration = f.endt - f.start ∧ durt ≤ f.duration := by
  induction pts generalizing fixs oc with
  | nil => simpa using hinv
  | cons p rest ih =>
    rw [List.foldl_cons]
    refine ih (detectStep dt durt (fixs, oc) p).1
      (detectStep dt durt (fixs, oc) p).2 ?_
    intro f hf
    rcases detectStep_fst_mem dt durt (fixs, oc) p f hf with
      h1 | ⟨c, _, h1, h2, h3, h4⟩
    · exact hinv f h1
    · exact ⟨by rw [h3, h2, h1], by rw [h3]; exact h4⟩

/-- C1: every fixation returned by `detect_fixations`, for any sample list
and any thresholds, has `duration = end - start` and
`duration ≥ duration_threshold`; candidate groups shorter than the
threshold are never emitted. -/
theorem detect_fixations_duration (pts : List GazeSample) (dt durt : ℚ) :
    ∀ f ∈ detect_fixations pts dt durt,
      f.duration = f.endt - f.start ∧ durt ≤ f.duration := by
  have h := detectLoop_duration dt durt pts [] none (by simp)
  intro f hf
  unfold detect_fixations at hf
  rcases hst : pts.foldl (detectStep dt durt) ([], none) with ⟨fixs, oc⟩
  rw [hst] at h hf
  cases oc with
  | none => exact h f hf
  | some c =>
    rcases mem_closeCandidate hf with h1 | ⟨h1, h2, h3, h4⟩
    · exact h f h1
    · exact ⟨by rw [h3, h2, h1], by rw [h3]; exact h4⟩

/-- Witness for `detect_fixations_duration`: a concrete two-sample trace
produces a fixation whose duration is 150 = end − start ≥ 100. -/
theorem detect_fixations_duration_witness :
    (⟨100, 100, 0, 150, 150, "p1"⟩ : Fixation)
      ∈ detect_fixations [⟨0, 100, 100, "p1"⟩, ⟨150, 100, 100, "p1"⟩] 50 100
    ∧ ((⟨100, 100, 0, 150, 150, "p1"⟩ : Fixation).duration
        = (⟨100, 100, 0, 150, 150, "p1"⟩ : Fixation).endt
          - (⟨100, 100, 0, 150, 150, "p1"⟩ : Fixation).start
       ∧ (100:ℚ) ≤ (⟨100, 100, 0, 150, 150, "p1"⟩ : Fixation).duration) :=
  have hmem : (⟨100, 100, 0, 150, 150, "p1"⟩ : Fixation)
      ∈ detect_fixations [⟨0, 100, 100, "p1"⟩, ⟨150, 100, 100, "p1"⟩] 50 100 := by
    norm_num [detect_fixations, detectStep, distWithin, listMean,
      closeCandidate, seedCandidate]
  ⟨hmem,
   detect_fixations_duration [⟨0, 100, 100, "p1"⟩, ⟨150, 100, 100, "p1"⟩]
     50 100 ⟨100, 100, 0, 150, 150, "p1"⟩ hmem⟩

/-- The trailing `if current_fixation:` flush of `detect_fixations`
(lines 72-83), applied to the final loop state. -/
def detectFinish (durt : ℚ) (st : List Fixation × Option Candidate) :
    List Fixation :=
  match st with
  | (fx, none) => fx
  | (fx, some c) => closeCandidate durt c fx

theorem chain'_closeCandidate (durt : ℚ) (c : Candidate)
    (acc : List Fixation)
    (hchain : List.Chain' (fun f g : Fixation => f.endt ≤ g.start) acc)
    (hlast : ∀ f ∈ acc, f.endt ≤ c.start) :
    List.Chain' (fun f g : Fixation => f.endt ≤ g.start)
      (closeCandidate durt c acc) := by
  simp only [closeCandidate]
  split_ifs with h
  · rw [List.chain'_append]
    refine ⟨hchain, List.chain'_singleton _, ?_⟩
    intro x hx y hy
    simp only [List.head?_cons, Option.mem_def, Option.some.injEq] at hy
    subst hy
    exact hlast x (List.mem_of_mem_getLast? hx)
  · exact hchain

theorem detectLoop_chain (dt durt : ℚ) (pts : List GazeSample) :
    ∀ (fixs : List Fixation) (c : Candidate),
    List.Pairwise (fun a b : GazeSample => a.t ≤ b.t) pts →
    (∀ p ∈ pts, c.endt ≤ p.t) →
    (∀ f ∈ fixs, f.start ≤ f.endt) →
    List.Chain' (fun f g : Fixation => f.endt ≤ g.start) fixs →
    (∀ f ∈ fixs, f.endt ≤ c.start) →
    c.start ≤ c.endt →
    (∀ f ∈ detectFinish durt (pts.foldl (detectStep dt durt) (fixs, some c)),
        f.start ≤ f.endt)
    ∧ List.Chain' (fun f g : Fixation => f.endt ≤ g.start)
        (detectFinish durt (pts.foldl (detectStep dt durt) (fixs, some c))) := by
  induction pts with
  | nil =>
    intro fixs c _ _ hse hchain hlastc hc
    constructor
    · intro f hf
      have hf2 : f ∈ closeCandidate durt c fixs := hf
      rcases mem_closeCandidate hf2 with h1 | ⟨h1, h2, _, _⟩
      · exact hse f h1
      · rw [h1, h2]
        exact hc
    · exact chain'_closeCandidate durt c fixs hchain hlastc
  | cons p rest ih =>
    intro fixs c hpw hct hse hchain hlastc hc
    rw [List.foldl_cons]
    have hpt : c.endt ≤ p.t := hct p (List.mem_cons_self p rest)
    have hpw2 := (List.pairwise_cons.mp hpw).2
    have hprest := (List.pairwise_cons.mp hpw).1
    by_cases hcond :
        (distWithin (p.x - listMean c.xs) (p.y - listMean c.ys) dt
          && (c.aoi == p.aoi)) = true
    · have hstep : detectStep dt durt (fixs, some c) p
          = (fixs, some ⟨c.xs ++ [p.x], c.ys ++ [p.y], c.start, p.t, c.aoi⟩) := by
        simp only [detectStep]
        rw [if_pos hcond]
      rw [hstep]
      refine ih fixs _ hpw2 ?_ hse hchain ?_ ?_
      · intro q hq
        exact hprest q hq
      · exact hlastc
      · exact le_trans hc hpt
    · have hstep : detectStep dt durt (fixs, some c) p
          = (closeCandidate durt c fixs, some (seedCandidate p)) := by
        simp only [detectStep]
        rw [if_neg hcond]
      rw [hstep]
      refine ih (closeCandidate durt c fixs) (seedCandidate p) hpw2 ?_ ?_ ?_ ?_ ?_
      · intro q hq
        exact hprest q hq
      · intro f hf
        rcases mem_closeCandidate hf with h1 | ⟨h1, h2, _, _⟩
        · exact hse f h1
        · rw [h1, h2]
          exact hc
      · exact chain'_closeCandidate durt c fixs hchain hlastc
      · intro f hf
        rcases mem_closeCandidate hf with h1 | ⟨_, h2, _, _⟩
        · exact le_trans (hlastc f h1) (le_trans hc hpt)
        · rw [h2]
          exact hpt
      · exact le_refl _

theorem chain'_start_of_chain'_endt (l : List Fixation)
    (h1 : List.Chain' (fun f g : Fixation => f.endt ≤ g.start) l)
    (h2 : ∀ f ∈ l, f.start ≤ f.endt) :
    List.Chain' (fun f g : Fixation => f.start ≤ g.start) l := by
  induction l with
  | nil => exact List.chain'_nil
  | cons a t ih =>
    cases t with
    | nil => exact List.chain'_singleton _
    | cons b t2 =>
      rw [List.chain'_cons] at h1 ⊢
      refine ⟨le_trans (h2 a (List.mem_cons_self _ _)) h1.1, ?_⟩
      exact ih h1.2 (fun f hf => h2 f (List.mem_cons_of_mem _ hf))

/-- C2: on any gaze trace with monotonic non-decreasing timestamps, every
adjacent pair of emitted fixations satisfies end of the previous ≤ start
of the next, every fixation's own interval is well-formed
(start ≤ end), and hence fixations come in non-decreasing start order:
their time intervals never overlap. -/
theorem detect_fixations_ordered (pts : List GazeSample) (dt durt : ℚ)
    (hmono : List.Chain' (fun a b : GazeSample => a.t ≤ b.t) pts) :
    List.Chain' (fun f g : Fixation => f.endt ≤ g.start)
      (detect_fixations pts dt durt)
    ∧ (∀ f ∈ detect_fixations pts dt durt, f.start ≤ f.endt)
    ∧ List.Chain' (fun f g : Fixation => f.start ≤ g.start)
      (detect_fixations pts dt durt) := by
  have hpw : List.Pairwise (fun a b : GazeSample => a.t ≤ b.t) pts := by
    haveI : IsTrans GazeSample (fun a b : GazeSample => a.t ≤ b.t) :=
      ⟨fun _ _ _ hab hbc => le_trans hab hbc⟩
    exact List.chain'_iff_pairwise.mp hmono
  cases pts with
  | nil =>
    refine ⟨List.chain'_nil, ?_, List.chain'_nil⟩
    intro f hf
    exact absurd hf (List.not_mem_nil f)
  | cons p rest =>
    have hres : detect_fixations (p :: rest) dt durt
        = detectFinish durt
          (rest.foldl (detectStep dt durt) ([], some (seedCandidate p))) := rfl
    have h := detectLoop_chain dt durt rest [] (seedCandidate p)
      (List.pairwise_cons.mp hpw).2
      (fun q hq => (List.pairwise_cons.mp hpw).1 q hq)
      (fun f hf => absurd hf (List.not_mem_nil f))
      List.chain'_nil
      (fun f hf => absurd hf (List.not_mem_nil f))
      (le_refl _)
    rw [hres]
    exact ⟨h.2, h.1, chain'_start_of_chain'_endt _ h.2 h.1⟩

/-- Witness for `detect_fixations_ordered` on scenario B's two-cluster
trace. -/
theorem detect_fixations_ordered_witness :
    List.Chain' (fun f g : Fixation => f.endt ≤ g.start)
      (detect_fixations
        [⟨0, 100, 100, "p1"⟩, ⟨60, 100, 100, "p1"⟩, ⟨120, 100, 100, "p1"⟩,
         ⟨200, 500, 500, "p2"⟩, ⟨275, 500, 500, "p2"⟩, ⟨350, 500, 500, "p2"⟩]
        50 100)
    ∧ (∀ f ∈ detect_fixations
        [⟨0, 100, 100, "p1"⟩, ⟨60, 100, 100, "p1"⟩, ⟨120, 100, 100, "p1"⟩,
         ⟨200, 500, 500, "p2"⟩, ⟨275, 500, 500, "p2"⟩, ⟨350, 500, 500, "p2"⟩]
        50 100, f.start ≤ f.endt)
    ∧ List.Chain' (fun f g : Fixation => f.start ≤ g.start)
      (detect_fixations
        [⟨0, 100, 100, "p1"⟩, ⟨60, 100, 100, "p1"⟩, ⟨120, 100, 100, "p1"⟩,
         ⟨200, 500, 500, "p2"⟩, ⟨275, 500, 500, "p2"⟩, ⟨350, 500, 500, "p2"⟩]
        50 100) :=
  detect_fixations_ordered
    [⟨0, 100, 100, "p1"⟩, ⟨60, 100, 100, "p1"⟩, ⟨120, 100, 100, "p1"⟩,
     ⟨200, 500, 500, "p2"⟩, ⟨275, 500, 500, "p2"⟩, ⟨350, 500, 500, "p2"⟩]
    50 100 (by norm_num)

end FeatureExtractor
